import Mathlib

/-!
Roro Client launcher / overlay: a verification development.

Shallow embedding of `src/roro_launcher_overlay.cpp`.

Modelling conventions.
* `Clock::time_point` values are whole milliseconds (`Int`).
* `float` values are exact rationals (`Rat`): the properties below are about
  which values are stored and compared, not about rounding.
* `std::deque` is a `List` whose head is `front()`.
-/

namespace Roro

/-! ## Click sampler (`clickTimes`, `getCPS`) -/

/-- The loop of `getCPS`:
`while(!clickTimes.empty() && ms(now - clickTimes.front()) > 1000) clickTimes.pop_front();`
It returns the deque that is left. -/
def pruneClicks (now : Int) : List Int → List Int
  | [] => []
  | t :: rest => if now - t > 1000 then pruneClicks now rest else t :: rest

/-- The function `getCPS`, with `Clock::now()` passed in as `now`: the pruning
loop followed by `return (int)clickTimes.size()`.  The result is the returned
count together with the deque after the call.  The count is the size itself:
the cast to `int` is exact for every deque of fewer than `2^31` entries. -/
def getCPS (now : Int) (clickTimes : List Int) : Nat × List Int :=
  ((pruneClicks now clickTimes).length, pruneClicks now clickTimes)

/-- The click detection of the overlay tick:
`if(curLeft && !lastLeft){ clickTimes.push_back(Clock::now()); }`. -/
def recordClick (now : Int) (curLeft lastLeft : Bool) (clickTimes : List Int) : List Int :=
  if curLeft && !lastLeft then clickTimes ++ [now] else clickTimes

/-! ## Frame-rate accumulator (`g_fps`, `frames`, `accum`) -/

/-- The type `ImVec2`. -/
structure ImVec2 where
  x : Rat
  y : Rat
  deriving DecidableEq, Repr

/-- A `float[4]` array (`color`, `bgColor`), listed by index. -/
structure Float4 where
  v0 : Rat
  v1 : Rat
  v2 : Rat
  v3 : Rat
  deriving DecidableEq, Repr

/-- The struct `PanelConfig` with its default member initialisers. -/
structure PanelConfig where
  enabled : Bool := true
  background : Bool := true
  scale : Rat := 1
  color : Float4 := ⟨1, 1, 1, 1⟩
  bgColor : Float4 := ⟨0, 0, 0, 1 / 2⟩
  movable : Bool := true
  pos : ImVec2 := ⟨100, 100⟩
  deriving DecidableEq, Repr

/-- A `std::map<std::string, V>` as an association list.  A valid map holds at
most one entry per key (`KeysDistinct`).  The list order stands for the
iteration order of the map; no statement below depends on which order it is. -/
abbrev StrMap (V : Type) := List (String × V)

/-- The keys of a map, in iteration order. -/
def mapKeys {V : Type} (m : StrMap V) : List String := m.map Prod.fst

/-- The invariant of `std::map`: no key occurs twice. -/
def KeysDistinct {V : Type} (m : StrMap V) : Prop := (mapKeys m).Nodup

instance {V : Type} (m : StrMap V) : Decidable (KeysDistinct m) := by
  unfold KeysDistinct; infer_instance

/-- Lookup, `m.find(k)`. -/
def mapFind {V : Type} : StrMap V → String → Option V
  | [], _ => none
  | (k', v') :: rest, k => if k' = k then some v' else mapFind rest k

/-- Assignment through `operator[]`, `m[k] = v`: the entry of `k` is
overwritten when there is one, and created otherwise. -/
def mapSet {V : Type} : StrMap V → String → V → StrMap V
  | [], k, v => [(k, v)]
  | (k', v') :: rest, k, v =>
    if k' = k then (k, v) :: rest else (k', v') :: mapSet rest k v

/-- The struct `AppConfig` with its default member initialisers; the value of
`g_config` at program start is `{}`. -/
structure AppConfig where
  minecraftPath : String := ""
  overlayClickThrough : Bool := false
  overlayAlwaysOnTop : Bool := true
  panels : StrMap PanelConfig := []
  deriving DecidableEq, Repr

/-- The array `PANEL_NAMES`. -/
def PANEL_NAMES : List String :=
  ["FPS COUNTER", "CPS COUNTER", "KEYSTROKE", "REACH COUNTER", "WATERMARK",
   "MOOVABLE CHAT", "MOOVABLE UI", "MOOVABLE SCOREBOARD", "FAST INVENTORY", "JAVA INVENTORY",
   "ESP", "WHEATHER CHANGER", "TIME CHANGER", "FOV", "NAMETAGS", "HIDE_PSEUDO", "TWERK",
   "JAVA_MOVEMENTS"]

/-! ## The JSON collaborator (`nlohmann::json`) -/

/-- A JSON value.  Numbers are exact rationals.  The members of an object are
an association list. -/
inductive Json where
  | null
  | bool (b : Bool)
  | num (q : Rat)
  | str (s : String)
  | arr (elems : List Json)
  | obj (members : List (String × Json))

/-- Conversion `get<bool>()`: only a JSON boolean converts, anything else
throws `type_error` (`none`). -/
def Json.getBool : Json → Option Bool
  | .bool b => some b
  | _ => none

/-- Conversion `get<std::string>()`: only a JSON string converts. -/
def Json.getString : Json → Option String
  | .str s => some s
  | _ => none

/-- Conversion `get<float>()`: a JSON number converts, and so does a JSON
boolean (to 1 or 0), as for every arithmetic target type of the library;
anything else throws `type_error` (`none`). -/
def Json.getFloat : Json → Option Rat
  | .num q => some q
  | .bool b => some (if b then 1 else 0)
  | _ => none

/-- The member function `contains(key)`: true for an object that has the key,
false for everything else. -/
def Json.contains : Json → String → Bool
  | .obj m, key => (mapFind m key).isSome
  | _, _ => false

/-- The member access `j[key]` where it is used on an object that contains the key; a
key that is absent (or a null receiver) reads as `null`. -/
def Json.at : Json → String → Json
  | .obj m, key => (mapFind m key).getD Json.null
  | _, _ => Json.null

/-- The call `j.value(key, dflt)` for a target type with conversion `conv`: on
an object, the converted member when the key is present (the conversion may
throw) and `dflt` when it is absent; on anything that is not an object it
throws `type_error` (`none`). -/
def Json.value {T : Type} (conv : Json → Option T) (j : Json) (key : String) (dflt : T) :
    Option T :=
  match j with
  | .obj m =>
    match mapFind m key with
    | some v => conv v
    | none => some dflt
  | _ => none

/-- Modelled from the spec: the indexed call `a.value(i, dflt)` on the value
stored under `color`, `bgColor` and `pos`, which the persisted form defines as
numeric sequences whose gaps are filled by defaults.  Element `i` of the
sequence is converted when it is present, `dflt` is returned when the sequence
is shorter, and a receiver that is not a sequence throws (`none`), as `value`
does for a receiver of the wrong kind. -/
def Json.valueAt (a : Json) (i : Nat) (dflt : Rat) : Option Rat :=
  match a with
  | .arr elems =>
    match elems.get? i with
    | some v => v.getFloat
    | none => some dflt
  | _ => none

/-- Keys `"0"`, `"1"`, ... paired with the elements of an array, from index
`i` on. -/
def indexedItems : Nat → List Json → StrMap Json
  | _, [] => []
  | i, v :: rest => (toString i, v) :: indexedItems (i + 1) rest

/-- The range `j.items()`: the members of an object, the elements of an array
under their indices, nothing for `null`, and the value itself under the empty
key for any other value. -/
def Json.items : Json → StrMap Json
  | .obj m => m
  | .arr elems => indexedItems 0 elems
  | .null => []
  | v => [("", v)]

/-- Assignment `j[key] = v` as `save_config` uses it: a `null` receiver becomes
an object with the one member, an object has the member overwritten or added.
(The library throws for any other receiver; `save_config` has none, and the
receiver is returned as it is.) -/
def Json.set : Json → String → Json → Json
  | .null, key, v => .obj [(key, v)]
  | .obj m, key, v => .obj (mapSet m key v)
  | j, _, _ => j

/-! ## `load_config` and `save_config` -/

/-- What `std::ifstream in(CONFIG_FILE)` and `in >> j` find: no file that can
be opened, a file whose text does not parse as JSON, or a file holding the
JSON document `j`. -/
inductive ConfigFile where
  | missing
  | malformed
  | document (j : Json)

/-- The three colour reads `for(int i=0;i<4;i++) c[i] = a.value(i, c[i]);`. -/
def readFloat4 (a : Json) (c : Float4) : Option Float4 := do
  let v0 ← a.valueAt 0 c.v0
  let v1 ← a.valueAt 1 c.v1
  let v2 ← a.valueAt 2 c.v2
  let v3 ← a.valueAt 3 c.v3
  pure ⟨v0, v1, v2, v3⟩

/-- The body of the loop over `j["panels"].items()` up to the assignment into
the map: the `PanelConfig` built from one member, or `none` when one of the
reads throws. -/
def readPanel (obj : Json) : Option PanelConfig := do
  let p : PanelConfig := {}
  let enabled ← obj.value Json.getBool "enabled" true
  let background ← obj.value Json.getBool "background" true
  let scale ← obj.value Json.getFloat "scale" 1
  let color ← if obj.contains "color" then readFloat4 (obj.at "color") p.color else pure p.color
  let bgColor ←
    if obj.contains "bgColor" then readFloat4 (obj.at "bgColor") p.bgColor else pure p.bgColor
  let pos ←
    if obj.contains "pos" then do
      let x ← (obj.at "pos").valueAt 0 p.pos.x
      let y ← (obj.at "pos").valueAt 1 p.pos.y
      pure (⟨x, y⟩ : ImVec2)
    else pure p.pos
  let movable ← obj.value Json.getBool "movable" true
  pure { enabled := enabled, background := background, scale := scale, color := color,
         bgColor := bgColor, movable := movable, pos := pos }

/-- The loop `for(auto &it : j["panels"].items())`, run on `g_config = g`.  The
result is `g_config` when the loop ends or is left by an exception, and
whether it was left by an exception. -/
def loadPanels : StrMap Json → AppConfig → AppConfig × Bool
  | [], g => (g, false)
  | (key, obj) :: rest, g =>
    match readPanel obj with
    | none => (g, true)
    | some p => loadPanels rest { g with panels := mapSet g.panels key p }

/-- The `try` block of `load_config` after `in >> j` succeeded with document
`j`, run on `g_config = g`: `g_config` when the block ends or is left by an
exception, and whether it was left by an exception. -/
def loadDocument (j : Json) (g : AppConfig) : AppConfig × Bool :=
  match j.value Json.getString "minecraftPath" "" with
  | none => (g, true)
  | some path =>
    let g1 := { g with minecraftPath := path }
    match j.value Json.getBool "overlayClickThrough" false with
    | none => (g1, true)
    | some clickThrough =>
      let g2 := { g1 with overlayClickThrough := clickThrough }
      match j.value Json.getBool "overlayAlwaysOnTop" true with
      | none => (g2, true)
      | some onTop =>
        let g3 := { g2 with overlayAlwaysOnTop := onTop }
        if j.contains "panels" then loadPanels (j.at "panels").items g3 else (g3, false)

/-- The missing-file branch of `load_config`: every name of `PANEL_NAMES`, in
turn, is assigned a default `PanelConfig` (the four assignments in the loop
repeat the default member initialisers). -/
def createDefaults (names : List String) (g : AppConfig) : AppConfig :=
  names.foldl
    (fun acc name =>
      let p : PanelConfig := { enabled := true, background := true, scale := 1, movable := true }
      { acc with panels := mapSet acc.panels name p })
    g

/-- The function `load_config`, run on `g_config = g` with the file as found:
`g_config` after the call, and whether the handler that logs
"Failed to parse" ran. -/
def load_config_run (file : ConfigFile) (g : AppConfig) : AppConfig × Bool :=
  match file with
  | .missing => (createDefaults PANEL_NAMES g, false)
  | .malformed => (g, true)
  | .document j => loadDocument j g

/-- The value of `g_config` after `load_config`. -/
def load_config (file : ConfigFile) (g : AppConfig) : AppConfig :=
  (load_config_run file g).1

/-- The JSON object `p` that `save_config` builds for one panel. -/
def panelJson (c : PanelConfig) : Json :=
  ((((((Json.null.set "enabled" (.bool c.enabled)).set "background" (.bool c.background)).set
    "scale" (.num c.scale)).set "movable" (.bool c.movable)).set
    "color" (.arr [.num c.color.v0, .num c.color.v1, .num c.color.v2, .num c.color.v3])).set
    "bgColor" (.arr [.num c.bgColor.v0, .num c.bgColor.v1, .num c.bgColor.v2, .num c.bgColor.v3])).set
    "pos" (.arr [.num c.pos.x, .num c.pos.y])

/-- The JSON value `panels` that `save_config` builds: it starts as `null` and
receives `panels[kv.first] = p` for every entry of the map. -/
def panelsJson (m : StrMap PanelConfig) : Json :=
  m.foldl (fun acc kv => acc.set kv.1 (panelJson kv.2)) Json.null

/-- The function `save_config` on `g_config = g`: the document `j` that is
dumped to the file. -/
def save_config (g : AppConfig) : Json :=
  (((Json.null.set "minecraftPath" (.str g.minecraftPath)).set
    "overlayClickThrough" (.bool g.overlayClickThrough)).set
    "overlayAlwaysOnTop" (.bool g.overlayAlwaysOnTop)).set
    "panels" (panelsJson g.panels)

/-- The backfill of `main`: `if(g_config.panels.empty())`, every name of
`PANEL_NAMES` is assigned a default `PanelConfig` with `pos = (50, 70)`. -/
def backfillPanels (g : AppConfig) : AppConfig :=
  if g.panels.isEmpty then
    PANEL_NAMES.foldl
      (fun acc name =>
        let p : PanelConfig :=
          { enabled := true, background := true, scale := 1, movable := true, pos := ⟨50, 50 + 20⟩ }
        { acc with panels := mapSet acc.panels name p })
      g
  else g

/-- Start of `main` up to the main loop, as far as `g_config` goes:
`load_config()` on the initial `g_config`, then the backfill. -/
def startup (file : ConfigFile) : AppConfig :=
  backfillPanels (load_config file {})

/-! ## Window behaviour (`SetWindowPos`, `setWindowClickThrough`) -/

/-- The attributes of the overlay window that the overlay tick touches: whether
it is in the topmost band (what `SetWindowPos(.., HWND_TOPMOST, ..)` turns on),
and the bits of `GWL_EXSTYLE` that `GetWindowLong` reads and `SetWindowLong`
writes, as a bit pattern. -/
structure WindowState where
  topmost : Bool
  exStyle : Nat
  deriving DecidableEq, Repr

/-- The Windows constant `WS_EX_TRANSPARENT`, `0x00000020`. -/
def WS_EX_TRANSPARENT : Nat := 0x20

/-- The Windows constant `WS_EX_LAYERED`, `0x00080000`. -/
def WS_EX_LAYERED : Nat := 0x80000

/-- Bitwise complement `~x` of a 32-bit `LONG`. -/
def not32 (x : Nat) : Nat := 0xFFFFFFFF ^^^ (x % 2 ^ 32)

/-- The function `setWindowClickThrough`:
`ex = GetWindowLong(..); if(clickThrough) ex |= WS_EX_TRANSPARENT | WS_EX_LAYERED;
else ex &= ~(WS_EX_TRANSPARENT); SetWindowLong(.., ex);`. -/
def setWindowClickThrough (w : WindowState) (clickThrough : Bool) : WindowState :=
  let ex := w.exStyle
  let ex := if clickThrough then ex ||| (WS_EX_TRANSPARENT ||| WS_EX_LAYERED)
            else ex &&& not32 WS_EX_TRANSPARENT
  { w with exStyle := ex }

/-- The topmost update of the overlay tick:
`if(g_config.overlayAlwaysOnTop){ SetWindowPos(ovh, HWND_TOPMOST, ..); }`. -/
def applyTopmost (w : WindowState) (overlayAlwaysOnTop : Bool) : WindowState :=
  if overlayAlwaysOnTop then { w with topmost := true } else w

/-- The window behaviour step of one overlay tick: the topmost update followed
by `setWindowClickThrough(ovh, g_config.overlayClickThrough)`. -/
def windowBehaviour (g : AppConfig) (w : WindowState) : WindowState :=
  setWindowClickThrough (applyTopmost w g.overlayAlwaysOnTop) g.overlayClickThrough

/-- Whether the input-transparent style bit `WS_EX_TRANSPARENT` is set. -/
def WindowState.inputTransparent (w : WindowState) : Bool :=
  (w.exStyle &&& WS_EX_TRANSPARENT) != 0

/-! ## The panel loop of the overlay tick -/

/-- The C string `s.c_str()` as a `%s` argument or a window title reads it: the
characters before the first NUL. -/
def c_str (s : String) : String := ⟨s.data.takeWhile (fun c => c ≠ Char.ofNat 0)⟩

/-- What a panel displays: the format and its arguments. -/
inductive Content where
  /-- The text `"FPS: %.1f"` of `g_fps`. -/
  | fps (g_fps : Rat)
  /-- The text `"CPS: %d"` of `getCPS()`. -/
  | cps (n : Nat)
  /-- The text `"W %s  A %s  S %s  D %s  Space %s"` of the five key states. -/
  | keystroke (w a s d space : Bool)
  /-- The text `"Reach: %.2fm"` of `lastReach`. -/
  | reach (lastReach : Rat)
  /-- A text shown as it is. -/
  | text (s : String)
  deriving DecidableEq, Repr

/-- One panel window handed to the UI collaborator in a frame. -/
structure Draw where
  /-- Title given to `ImGui::Begin`. -/
  title : String
  /-- Argument of `SetNextWindowBgAlpha`. -/
  bgAlpha : Rat
  /-- Argument of `SetNextWindowSize` (applied once). -/
  size : ImVec2
  /-- Argument of `SetNextWindowPos` (applied once). -/
  pos : ImVec2
  /-- Whether `ImGuiWindowFlags_NoMove` is among the flags. -/
  noMove : Bool
  /-- Whether `ImGuiWindowFlags_NoInputs` is among the flags. -/
  noInputs : Bool
  /-- Colour of `TextColored`, none for plain `Text`. -/
  textColor : Option Float4
  content : Content
  deriving DecidableEq, Repr

/-- What the panel loop reads besides the configuration: the clock, the
sampler globals, and the position `ImGui::GetWindowPos()` reports for the
window of a given title. -/
structure FrameEnv where
  now : Int
  g_fps : Rat
  keyStateW : Bool
  keyStateA : Bool
  keyStateS : Bool
  keyStateD : Bool
  keyStateSpace : Bool
  lastReach : Rat
  windowPos : String → ImVec2

/-- The content dispatch `if(name == "FPS COUNTER"){..} else if .. else {..}`:
the content, the colour of `TextColored` if that is the call, and `clickTimes`
afterwards (`getCPS` prunes it). -/
def panelContent (env : FrameEnv) (clickTimes : List Int) (name : String) (p : PanelConfig) :
    Content × Option Float4 × List Int :=
  if name = "FPS COUNTER" then (.fps env.g_fps, some p.color, clickTimes)
  else if name = "CPS COUNTER" then
    (.cps (getCPS env.now clickTimes).1, some p.color, (getCPS env.now clickTimes).2)
  else if name = "KEYSTROKE" then
    (.keystroke env.keyStateW env.keyStateA env.keyStateS env.keyStateD env.keyStateSpace,
      none, clickTimes)
  else if name = "REACH COUNTER" then (.reach env.lastReach, some p.color, clickTimes)
  else if name = "WATERMARK" then (.text "roro client", some p.color, clickTimes)
  else (.text (c_str name), none, clickTimes)

/-- One iteration of `for(auto &kv : g_config.panels)`: the `PanelConfig`
afterwards, the window drawn if any, and `clickTimes` afterwards. -/
def renderPanel (env : FrameEnv) (overlayClickThrough : Bool) (clickTimes : List Int)
    (name : String) (p : PanelConfig) : PanelConfig × Option Draw × List Int :=
  if !p.enabled then (p, none, clickTimes)
  else
    let shown := panelContent env clickTimes name p
    let d : Draw :=
      { title := c_str name
        bgAlpha := if p.background then p.bgColor.v3 else 0
        size := ⟨180 * p.scale, 30 * p.scale⟩
        pos := p.pos
        noMove := !p.movable
        noInputs := overlayClickThrough
        textColor := shown.2.1
        content := shown.1 }
    ({ p with pos := env.windowPos (c_str name) }, some d, shown.2.2)

/-- The loop `for(auto &kv : g_config.panels)` of one overlay tick: the map
afterwards, the windows drawn in order, and `clickTimes` afterwards. -/
def renderPanels (env : FrameEnv) (overlayClickThrough : Bool) :
    StrMap PanelConfig → List Int → StrMap PanelConfig × List Draw × List Int
  | [], clickTimes => ([], [], clickTimes)
  | (name, p) :: rest, clickTimes =>
    let r := renderPanel env overlayClickThrough clickTimes name p
    let rs := renderPanels env overlayClickThrough rest r.2.2
    ((name, r.1) :: rs.1, r.2.1.toList ++ rs.2.1, rs.2.2)

/-- The panel loop of one overlay tick on `g_config = g`. -/
def overlayPanels (env : FrameEnv) (g : AppConfig) (clickTimes : List Int) :
    AppConfig × List Draw × List Int :=
  let rs := renderPanels env g.overlayClickThrough g.panels clickTimes
  ({ g with panels := rs.1 }, rs.2.1, rs.2.2)

/-- The identities of the panels for which the loop of one overlay tick reaches
`ImGui::Begin(name.c_str(), ..)`, in iteration order: the entries whose
iteration hands a window to the UI collaborator. -/
def drawnNames (env : FrameEnv) (overlayClickThrough : Bool) :
    StrMap PanelConfig → List Int → List String
  | [], _ => []
  | (name, p) :: rest, clickTimes =>
    let r := renderPanel env overlayClickThrough clickTimes name p
    (if r.2.1.isSome then [name] else [])
      ++ drawnNames env overlayClickThrough rest r.2.2

/-- The identity strings that the content dispatch compares `name` with. -/
def RECOGNISED_NAMES : List String :=
  ["FPS COUNTER", "CPS COUNTER", "KEYSTROKE", "REACH COUNTER", "WATERMARK"]

/-! ## Example inputs -/

/-- A Settings value: a target path, click-through on, the panel
"FPS COUNTER" disabled with scale 1.5, and a panel outside the catalog. -/
def roundtripExample : AppConfig :=
  { minecraftPath := "C:/Games/Minecraft.exe"
    overlayClickThrough := true
    overlayAlwaysOnTop := false
    panels :=
      [("FPS COUNTER", { enabled := false, scale := 3 / 2 }),
       ("WATERMARK", { color := ⟨1, 0, 0, 1⟩, movable := false, pos := ⟨12, 7 / 2⟩ }),
       ("MY PANEL", { background := false, bgColor := ⟨0, 0, 1, 1 / 4⟩ })] }

/-- The document `{"panels": {"WATERMARK": {"enabled": false}}}`. -/
def watermarkOnlyDocument : Json :=
  .obj [("panels", .obj [("WATERMARK", .obj [("enabled", .bool false)])])]

/-- The document `{"overlayClickThrough": true}`, which has no panels. -/
def noPanelsDocument : Json :=
  .obj [("overlayClickThrough", .bool true)]

/-- A window that is topmost, with no extended style bit set. -/
def topmostWindow : WindowState := ⟨true, 0⟩

/-- Settings with "always on top" turned off. -/
def notOnTopConfig : AppConfig := { overlayAlwaysOnTop := false }

/-- A frame in which the UI collaborator reports position (5, 5) for every
window. -/
def movedFrame : FrameEnv :=
  { now := 0, g_fps := 60, keyStateW := false, keyStateA := false, keyStateS := false,
    keyStateD := false, keyStateSpace := false, lastReach := 0,
    windowPos := fun _ => ⟨5, 5⟩ }

/-- An identity with a NUL character in it, as the key `"STATS\u0000v2"` of a
persisted document loads. -/
def nulName : String := ⟨['S', 'T', 'A', 'T', 'S', Char.ofNat 0, 'v', '2']⟩

/-- Settings whose one panel, enabled, has the identity `nulName`. -/
def nulPanelConfig : AppConfig :=
  { panels := [(nulName, { enabled := true })] }

end Roro

namespace Roro

/-! ## Click sampler: proofs -/

theorem pruneClicks_eq_filter (now : Int) (l : List Int) (hs : l.Pairwise (· ≤ ·)) :
    pruneClicks now l = l.filter (fun t => decide (now - t ≤ 1000)) := by
  induction l with
  | nil => rfl
  | cons t rest ih =>
    rw [List.pairwise_cons] at hs
    by_cases h : now - t > 1000
    · have hf : decide (now - t ≤ 1000) = false := by
        simp only [decide_eq_false_iff_not]; omega
      simp only [pruneClicks, h, if_true, List.filter_cons, hf]
      exact ih hs.2
    · have ht : decide (now - t ≤ 1000) = true := by
        simp only [decide_eq_true_eq]; omega
      have hall : rest.filter (fun u => decide (now - u ≤ 1000)) = rest := by
        rw [List.filter_eq_self]
        intro u hu
        have := hs.1 u hu
        simp only [decide_eq_true_eq]; omega
      simp only [pruneClicks, h, if_false, List.filter_cons, ht, if_true, hall]

/-- C1: for a click history with ascending timestamps and a query time `now`
not earlier than the newest entry, `getCPS` returns exactly the number of
entries `t` with `now - t ≤ 1000` ms, and the history after the query holds
exactly those entries, in their original order. -/
theorem getCPS_counts_trailing_window (now : Int) (clickTimes : List Int)
    (hsorted : clickTimes.Pairwise (· ≤ ·))
    (hnow : ∀ t ∈ clickTimes, t ≤ now) :
    (getCPS now clickTimes).1
        = (clickTimes.filter (fun t => decide (now - t ≤ 1000))).length
      ∧ (getCPS now clickTimes).2
        = clickTimes.filter (fun t => decide (now - t ≤ 1000))
      ∧ (∀ t, t ∈ (getCPS now clickTimes).2 ↔ t ∈ clickTimes ∧ 0 ≤ now - t ∧ now - t ≤ 1000) := by
  have h := pruneClicks_eq_filter now clickTimes hsorted
  refine ⟨by simp only [getCPS, h], by simp only [getCPS, h], ?_⟩
  intro t
  simp only [getCPS, h, List.mem_filter, decide_eq_true_eq]
  constructor
  · rintro ⟨hm, hle⟩
    have := hnow t hm
    exact ⟨hm, by omega, hle⟩
  · rintro ⟨hm, _, hle⟩
    exact ⟨hm, hle⟩

theorem getCPS_counts_trailing_window_witness :
    (getCPS 2500 [100, 1500, 1500, 2400]).1
        = ([100, 1500, 1500, 2400].filter (fun t => decide ((2500 : Int) - t ≤ 1000))).length
      ∧ (getCPS 2500 [100, 1500, 1500, 2400]).2
        = [100, 1500, 1500, 2400].filter (fun t => decide ((2500 : Int) - t ≤ 1000))
      ∧ (∀ t, t ∈ (getCPS 2500 [100, 1500, 1500, 2400]).2
          ↔ t ∈ [100, 1500, 1500, 2400] ∧ 0 ≤ 2500 - t ∧ 2500 - t ≤ 1000) :=
  getCPS_counts_trailing_window 2500 [100, 1500, 1500, 2400] (by decide) (by decide)

/-- C2 (as stated, refuted): with clicks recorded at 0, 200, 400 and 1100 ms
and a query at 1150 ms, `getCPS` does not return 2. -/
theorem getCPS_example_not_two : (getCPS 1150 [0, 200, 400, 1100]).1 ≠ 2 := by
  decide

/-- C2 (amended): with clicks recorded at 0, 200, 400 and 1100 ms and a query
at 1150 ms, `getCPS` returns 3: the entry at 0 is pruned and the entries at
200, 400 and 1100 remain. -/
theorem getCPS_example_three :
    getCPS 1150 [0, 200, 400, 1100] = (3, [200, 400, 1100]) := by
  decide

/-! ## Frame-rate accumulator: proofs -/

end Roro

namespace Roro

/-! ## Maps: lemmas -/

theorem mapFind_mapSet {V : Type} (m : StrMap V) (k : String) (v : V) (k' : String) :
    mapFind (mapSet m k v) k' = if k = k' then some v else mapFind m k' := by
  induction m with
  | nil => simp [mapSet, mapFind]
  | cons e rest ih =>
    obtain ⟨k0, v0⟩ := e
    by_cases h0 : k0 = k
    · subst h0
      by_cases h1 : k0 = k' <;> simp [mapSet, mapFind, h1]
    · by_cases h1 : k0 = k'
      · subst h1
        have : ¬ k = k0 := fun h => h0 h.symm
        simp [mapSet, mapFind, h0, this]
      · simp [mapSet, mapFind, h0, h1, ih]

theorem mapSet_of_not_mem {V : Type} (m : StrMap V) (k : String) (v : V)
    (h : k ∉ mapKeys m) : mapSet m k v = m ++ [(k, v)] := by
  induction m with
  | nil => rfl
  | cons e rest ih =>
    obtain ⟨k0, v0⟩ := e
    simp only [mapKeys, List.map_cons, List.mem_cons, not_or] at h
    have h0 : ¬ k0 = k := fun hk => h.1 hk.symm
    simp only [mapSet, h0, if_false, List.cons_append]
    rw [ih h.2]

theorem mapSet_of_mem {V : Type} (m : StrMap V) (k : String) (v : V)
    (hd : KeysDistinct m) (h : (k, v) ∈ m) : mapSet m k v = m := by
  induction m with
  | nil => simp at h
  | cons e rest ih =>
    obtain ⟨k0, v0⟩ := e
    simp only [KeysDistinct, mapKeys, List.map_cons, List.nodup_cons] at hd
    rcases List.mem_cons.mp h with heq | hmem
    · cases heq
      simp [mapSet]
    · have hne : ¬ k0 = k := by
        intro hk
        subst hk
        exact hd.1 (List.mem_map.mpr ⟨(k0, v), hmem, rfl⟩)
      simp only [mapSet, hne, if_false]
      rw [ih hd.2 hmem]

/-- Assigning the entries of `l` one after the other, as a loop over a map does. -/
theorem foldl_mapSet_fresh {V W : Type} (f : W → V) (l : StrMap W) :
    ∀ acc : StrMap V, KeysDistinct l → (∀ k ∈ mapKeys l, k ∉ mapKeys acc) →
      l.foldl (fun a kv => mapSet a kv.1 (f kv.2)) acc = acc ++ l.map (fun kv => (kv.1, f kv.2)) := by
  induction l with
  | nil => intro acc _ _; simp
  | cons e rest ih =>
    intro acc hd hdis
    obtain ⟨k0, v0⟩ := e
    simp only [KeysDistinct, mapKeys, List.map_cons, List.nodup_cons] at hd
    have hk0 : k0 ∉ mapKeys acc := hdis k0 (by simp [mapKeys])
    simp only [List.foldl_cons, List.map_cons]
    rw [mapSet_of_not_mem acc k0 (f v0) hk0, ih (acc ++ [(k0, f v0)]) hd.2]
    · simp
    · intro k hk
      have h1 : k ∉ mapKeys acc := hdis k (by
        simp only [mapKeys, List.map_cons, List.mem_cons]
        exact Or.inr hk)
      have h2 : k ≠ k0 := by
        intro h
        subst h
        exact hd.1 hk
      simp only [mapKeys, List.map_append, List.mem_append, List.map_cons, List.map_nil,
        List.mem_singleton, not_or]
      exact ⟨h1, h2⟩

theorem foldl_mapSet_present {V : Type} (m : StrMap V) (hd : KeysDistinct m) (l : StrMap V) :
    (∀ e ∈ l, e ∈ m) → l.foldl (fun a kv => mapSet a kv.1 kv.2) m = m := by
  induction l with
  | nil => intro _; rfl
  | cons e rest ih =>
    intro h
    obtain ⟨k0, v0⟩ := e
    simp only [List.foldl_cons]
    rw [mapSet_of_mem m k0 v0 hd (h (k0, v0) (by simp))]
    exact ih (fun e he => h e (List.mem_cons_of_mem _ he))

/-! ## Save and load: proofs -/

theorem readPanel_panelJson (c : PanelConfig) : readPanel (panelJson c) = some c := by
  obtain ⟨en, bg, sc, ⟨c0, c1, c2, c3⟩, ⟨b0, b1, b2, b3⟩, mv, ⟨px, py⟩⟩ := c
  rfl

theorem save_config_eq (g : AppConfig) :
    save_config g = .obj [("minecraftPath", .str g.minecraftPath),
      ("overlayClickThrough", .bool g.overlayClickThrough),
      ("overlayAlwaysOnTop", .bool g.overlayAlwaysOnTop),
      ("panels", panelsJson g.panels)] := by
  rfl

theorem foldl_set_obj (l : StrMap PanelConfig) :
    ∀ a : StrMap Json,
      l.foldl (fun acc kv => acc.set kv.1 (panelJson kv.2)) (Json.obj a)
        = Json.obj (l.foldl (fun acc kv => mapSet acc kv.1 (panelJson kv.2)) a) := by
  induction l with
  | nil => intro a; rfl
  | cons e rest ih =>
    intro a
    exact ih _

theorem panelsJson_items (m : StrMap PanelConfig) (hd : KeysDistinct m) :
    (panelsJson m).items = m.map (fun kv => (kv.1, panelJson kv.2)) := by
  cases m with
  | nil => rfl
  | cons e rest =>
    obtain ⟨k0, v0⟩ := e
    have hd' := hd
    simp only [KeysDistinct, mapKeys, List.map_cons, List.nodup_cons] at hd'
    show (rest.foldl (fun acc kv => acc.set kv.1 (panelJson kv.2))
      (Json.obj [(k0, panelJson v0)])).items = _
    rw [foldl_set_obj, foldl_mapSet_fresh panelJson rest [(k0, panelJson v0)] hd'.2]
    · rfl
    · intro k hk
      simp only [mapKeys, List.map_cons, List.map_nil, List.mem_singleton]
      intro h
      subst h
      exact hd'.1 hk

theorem loadPanels_saved (l : StrMap PanelConfig) :
    ∀ g : AppConfig,
      loadPanels (l.map (fun kv => (kv.1, panelJson kv.2))) g
        = ({ g with panels := l.foldl (fun a kv => mapSet a kv.1 kv.2) g.panels }, false) := by
  induction l with
  | nil => intro g; rfl
  | cons e rest ih =>
    intro g
    simp only [List.map_cons, loadPanels, readPanel_panelJson, List.foldl_cons]
    rw [ih]

theorem loadDocument_saved (s g : AppConfig) (hd : KeysDistinct s.panels) :
    loadDocument (save_config s) g
      = ({ s with panels := s.panels.foldl (fun a kv => mapSet a kv.1 kv.2) g.panels }, false) := by
  have hitems : (Json.at (save_config s) "panels").items
      = s.panels.map (fun kv => (kv.1, panelJson kv.2)) := by
    rw [← panelsJson_items s.panels hd]
    rfl
  have h1 : Json.value Json.getString (save_config s) "minecraftPath" "" = some s.minecraftPath :=
    rfl
  have h2 : Json.value Json.getBool (save_config s) "overlayClickThrough" false
      = some s.overlayClickThrough := rfl
  have h3 : Json.value Json.getBool (save_config s) "overlayAlwaysOnTop" true
      = some s.overlayAlwaysOnTop := rfl
  have h4 : Json.contains (save_config s) "panels" = true := rfl
  simp only [loadDocument, h1, h2, h3, h4, if_true, hitems, loadPanels_saved]

/-- C4: for every Settings value `s` (a valid map: one entry per panel
identity), `load_config` of the document written by `save_config` reproduces
`s` exactly and without taking the failure path, both when the load runs on
the same in-memory Settings and when it runs on the initial, empty Settings of
a new process; in particular every panel identity has the same `enabled`,
`background`, `scale`, `movable`, `color`, `bgColor` and `pos` as before. -/
theorem save_load_roundtrip (s : AppConfig) (hd : KeysDistinct s.panels) :
    load_config_run (.document (save_config s)) s = (s, false)
      ∧ load_config_run (.document (save_config s)) {} = (s, false)
      ∧ (∀ name, mapFind (load_config (.document (save_config s)) {}).panels name
            = mapFind s.panels name) := by
  have hsame : load_config_run (.document (save_config s)) s = (s, false) := by
    simp only [load_config_run, loadDocument_saved s s hd]
    rw [foldl_mapSet_present s.panels hd s.panels (fun e he => he)]
  have hfresh : load_config_run (.document (save_config s)) {} = (s, false) := by
    simp only [load_config_run, loadDocument_saved s {} hd]
    have := foldl_mapSet_fresh (fun c : PanelConfig => c) s.panels [] hd (by simp [mapKeys])
    simp only [List.nil_append, Prod.mk.eta, List.map_id'] at this
    rw [this]
  refine ⟨hsame, hfresh, ?_⟩
  intro name
  simp only [load_config, hfresh]

theorem save_load_roundtrip_witness :
    KeysDistinct roundtripExample.panels
      ∧ load_config_run (.document (save_config roundtripExample)) roundtripExample
          = (roundtripExample, false)
      ∧ load_config_run (.document (save_config roundtripExample)) {} = (roundtripExample, false)
      ∧ (∀ name, mapFind (load_config (.document (save_config roundtripExample)) {}).panels name
            = mapFind roundtripExample.panels name) :=
  ⟨by decide, save_load_roundtrip roundtripExample (by decide)⟩

/-! ## Defaults and backfill: proofs -/

theorem foldl_panels_mapSet (v : PanelConfig) (names : List String) :
    ∀ g : AppConfig,
      names.foldl (fun acc name => { acc with panels := mapSet acc.panels name v }) g
        = { g with panels := names.foldl (fun m name => mapSet m name v) g.panels } := by
  induction names with
  | nil => intro g; rfl
  | cons n rest ih =>
    intro g
    simp only [List.foldl_cons]
    rw [ih]

theorem mapFind_foldl_mapSet (v : PanelConfig) (names : List String) (k : String) :
    ∀ m : StrMap PanelConfig,
      mapFind (names.foldl (fun m name => mapSet m name v) m) k
        = if k ∈ names then some v else mapFind m k := by
  induction names with
  | nil => intro m; simp
  | cons n rest ih =>
    intro m
    simp only [List.foldl_cons, List.mem_cons]
    rw [ih, mapFind_mapSet]
    by_cases h1 : k ∈ rest
    · simp [h1]
    · by_cases h2 : n = k
      · subst h2; simp
      · have h3 : ¬ k = n := fun h => h2 h.symm
        simp [h1, h2, h3]

theorem createDefaults_eq (names : List String) (g : AppConfig) :
    createDefaults names g
      = { g with panels := names.foldl (fun m name => mapSet m name {}) g.panels } :=
  foldl_panels_mapSet {} names g

/-- C6: when the persisted file is missing, `load_config` leaves Settings with
an entry for every one of the 18 identities of `PANEL_NAMES`, each with
`enabled = true`, `background = true`, `scale = 1.0`, `movable = true` and the
same fixed default position (100, 100), and leaves the target path and the two
overlay flags unchanged; the failure handler does not run. -/
theorem load_config_missing_file (g : AppConfig) :
    (∀ name ∈ PANEL_NAMES,
        mapFind (load_config .missing g).panels name
          = some { enabled := true, background := true, scale := 1, color := ⟨1, 1, 1, 1⟩,
                   bgColor := ⟨0, 0, 0, 1 / 2⟩, movable := true, pos := ⟨100, 100⟩ })
      ∧ PANEL_NAMES.length = 18
      ∧ PANEL_NAMES.Nodup
      ∧ (load_config .missing g).minecraftPath = g.minecraftPath
      ∧ (load_config .missing g).overlayClickThrough = g.overlayClickThrough
      ∧ (load_config .missing g).overlayAlwaysOnTop = g.overlayAlwaysOnTop
      ∧ (load_config_run .missing g).2 = false := by
  have h : load_config .missing g
      = { g with panels := PANEL_NAMES.foldl (fun m name => mapSet m name {}) g.panels } :=
    createDefaults_eq PANEL_NAMES g
  refine ⟨?_, rfl, by decide, by rw [h], by rw [h], by rw [h], rfl⟩
  intro name hname
  rw [h]
  simp only [mapFind_foldl_mapSet, hname, if_true]

theorem load_config_missing_file_witness :
    mapFind (load_config .missing roundtripExample).panels "WATERMARK"
      = some { enabled := true, background := true, scale := 1, color := ⟨1, 1, 1, 1⟩,
               bgColor := ⟨0, 0, 0, 1 / 2⟩, movable := true, pos := ⟨100, 100⟩ } :=
  (load_config_missing_file roundtripExample).1 "WATERMARK" (by decide)

/-- C5 (as stated, refuted): after initialization with the document
`{"panels": {"WATERMARK": {"enabled": false}}}` it is not the case that every
identity of `PANEL_NAMES` has a `PanelConfig`: "FPS COUNTER" has none. -/
theorem startup_watermark_only_lacks_catalog :
    ¬ (∀ name ∈ PANEL_NAMES,
        (mapFind (startup (.document watermarkOnlyDocument)).panels name).isSome = true) := by
  intro h
  have h1 := h "FPS COUNTER" (by decide)
  have h2 : (mapFind (startup (.document watermarkOnlyDocument)).panels "FPS COUNTER").isSome
      = false := rfl
  rw [h2] at h1
  exact Bool.noConfusion h1

/-- C5 (amended): after initialization with a parseable document, the 18
identities of `PANEL_NAMES` are backfilled, each with the defaults (enabled,
background on, scale 1.0, movable, position (50, 70)), exactly when loading
left the panel map empty; when loading left at least one panel, Settings after
initialization is what `load_config` produced, with no backfill.  The document
`{"panels": {"WATERMARK": {"enabled": false}}}` gives WATERMARK disabled with
its other fields at defaults, and no other panel. -/
theorem startup_backfills_empty_map_only (j : Json) :
    ((load_config (.document j) {}).panels = [] →
        ∀ name ∈ PANEL_NAMES,
          mapFind (startup (.document j)).panels name
            = some { enabled := true, background := true, scale := 1, movable := true,
                     pos := ⟨50, 70⟩ })
      ∧ ((load_config (.document j) {}).panels ≠ [] →
          startup (.document j) = load_config (.document j) {})
      ∧ startup (.document watermarkOnlyDocument)
          = { panels := [("WATERMARK",
                { enabled := false, background := true, scale := 1, color := ⟨1, 1, 1, 1⟩,
                  bgColor := ⟨0, 0, 0, 1 / 2⟩, movable := true, pos := ⟨100, 100⟩ })] } := by
  refine ⟨?_, ?_, rfl⟩
  · intro hempty name hname
    generalize hg0 : load_config (.document j) {} = g0 at hempty
    have hb : startup (.document j)
        = { g0 with
            panels := PANEL_NAMES.foldl
              (fun m name => mapSet m name { pos := ⟨50, 50 + 20⟩ }) g0.panels } := by
      simp only [startup, backfillPanels, hg0, hempty, List.isEmpty_nil, if_true]
      rw [← hempty]
      exact foldl_panels_mapSet _ PANEL_NAMES _
    rw [hb]
    simp only [mapFind_foldl_mapSet, hname, if_true]
    norm_num
  · intro hne
    have : (load_config (.document j) {}).panels.isEmpty = false := by
      cases hp : (load_config (.document j) {}).panels with
      | nil => exact absurd hp hne
      | cons _ _ => rfl
    simp [startup, backfillPanels, this]

theorem watermarkOnly_loaded_nonempty :
    (load_config (.document watermarkOnlyDocument) {}).panels ≠ [] := by
  have h : (load_config (.document watermarkOnlyDocument) {}).panels
      = [("WATERMARK", { enabled := false })] := rfl
  rw [h]
  exact List.cons_ne_nil _ _

theorem startup_backfills_empty_map_only_witness :
    (load_config (.document noPanelsDocument) {}).panels = []
      ∧ mapFind (startup (.document noPanelsDocument)).panels "FPS COUNTER"
          = some { enabled := true, background := true, scale := 1, movable := true,
                   pos := ⟨50, 70⟩ }
      ∧ (load_config (.document watermarkOnlyDocument) {}).panels ≠ []
      ∧ startup (.document watermarkOnlyDocument)
          = load_config (.document watermarkOnlyDocument) {} :=
  ⟨rfl,
   (startup_backfills_empty_map_only noPanelsDocument).1 rfl "FPS COUNTER" (by decide),
   watermarkOnly_loaded_nonempty,
   (startup_backfills_empty_map_only watermarkOnlyDocument).2.1
     watermarkOnly_loaded_nonempty⟩

/-! ## The failure path of `load_config`: proofs -/

theorem and_two_pow_eq (x n : Nat) : x &&& 2 ^ n = if x.testBit n then 2 ^ n else 0 := by
  apply Nat.eq_of_testBit_eq
  intro i
  by_cases hb : x.testBit n = true
  · by_cases hi : n = i
    · subst hi; simp [hb, Nat.testBit_two_pow]
    · simp [hb, Nat.testBit_two_pow, hi]
  · by_cases hi : n = i
    · subst hi; simp [hb, Nat.testBit_two_pow]
    · simp [hb, Nat.testBit_two_pow, hi]

theorem and_transparent_ne_zero (x : Nat) : ((x &&& 32) != 0) = x.testBit 5 := by
  have h : x &&& 32 = if x.testBit 5 then 32 else 0 := and_two_pow_eq x 5
  rw [h]
  by_cases hb : x.testBit 5 = true <;> simp [hb]

/-- What the window behaviour step does to the two observed attributes: the
input-transparent bit follows `overlayClickThrough`, and the window is topmost
afterwards when it was before or when `overlayAlwaysOnTop` is set. -/
theorem windowBehaviour_effect (g : AppConfig) (w : WindowState) :
    (windowBehaviour g w).inputTransparent = g.overlayClickThrough
      ∧ (windowBehaviour g w).topmost = (w.topmost || g.overlayAlwaysOnTop) := by
  obtain ⟨path, ct, top, panels⟩ := g
  obtain ⟨tm, ex⟩ := w
  have hA : Nat.testBit 4294967263 5 = false := by decide
  have hB : Nat.testBit 524320 5 = true := by decide
  constructor
  · simp only [WindowState.inputTransparent, WS_EX_TRANSPARENT]
    rw [and_transparent_ne_zero]
    cases ct <;> cases top <;>
      simp [windowBehaviour, applyTopmost, setWindowClickThrough, WS_EX_TRANSPARENT,
        WS_EX_LAYERED, not32, hA, hB]
  · cases ct <;> cases top <;> cases tm <;>
      simp [windowBehaviour, applyTopmost, setWindowClickThrough]

/-- C8: for every overlay window state and every Settings value, applying the
window behaviour step twice with the same settings yields the same window
state as applying it once. -/
theorem windowBehaviour_idempotent (g : AppConfig) (w : WindowState) :
    windowBehaviour g (windowBehaviour g w) = windowBehaviour g w := by
  obtain ⟨path, ct, top, panels⟩ := g
  obtain ⟨tm, ex⟩ := w
  cases ct <;> cases top <;>
    simp [windowBehaviour, applyTopmost, setWindowClickThrough, Nat.and_assoc, Nat.or_assoc]

/-- C9 (the code at the failing input): on a window that is topmost, with
`overlayAlwaysOnTop = false`, the window behaviour step leaves the window
topmost, so the topmost flag differs from `overlayAlwaysOnTop`. -/
theorem windowBehaviour_never_clears_topmost :
    notOnTopConfig.overlayAlwaysOnTop = false
      ∧ (windowBehaviour notOnTopConfig topmostWindow).topmost = true
      ∧ (windowBehaviour notOnTopConfig topmostWindow).topmost
          ≠ notOnTopConfig.overlayAlwaysOnTop := by
  decide

/-! ## The panel loop: proofs -/

/-- What one iteration of the panel loop does to the stored position: an
enabled panel receives the reported position, movable or not, and a disabled
panel is left as it is. -/
theorem renderPanel_config (env : FrameEnv) (overlayClickThrough : Bool) (clickTimes : List Int)
    (name : String) (p : PanelConfig) :
    (renderPanel env overlayClickThrough clickTimes name p).1
      = if p.enabled then { p with pos := env.windowPos (c_str name) } else p := by
  cases h : p.enabled <;> simp [renderPanel, h]

theorem renderPanel_draw_isSome (env : FrameEnv) (overlayClickThrough : Bool)
    (clickTimes : List Int) (name : String) (p : PanelConfig) :
    (renderPanel env overlayClickThrough clickTimes name p).2.1.isSome = p.enabled := by
  cases h : p.enabled <;> simp [renderPanel, h]

theorem drawnNames_eq_enabled (env : FrameEnv) (overlayClickThrough : Bool)
    (l : StrMap PanelConfig) :
    ∀ clickTimes : List Int,
      drawnNames env overlayClickThrough l clickTimes
        = (l.filter (fun kv => kv.2.enabled)).map Prod.fst := by
  induction l with
  | nil => intro _; rfl
  | cons e rest ih =>
    intro clickTimes
    obtain ⟨name, p⟩ := e
    simp only [drawnNames, renderPanel_draw_isSome, ih, List.filter_cons]
    cases h : p.enabled <;> simp

theorem renderPanels_titles (env : FrameEnv) (overlayClickThrough : Bool)
    (l : StrMap PanelConfig) :
    ∀ clickTimes : List Int,
      (renderPanels env overlayClickThrough l clickTimes).2.1.map Draw.title
        = (drawnNames env overlayClickThrough l clickTimes).map c_str := by
  induction l with
  | nil => intro _; rfl
  | cons e rest ih =>
    intro clickTimes
    obtain ⟨name, p⟩ := e
    simp only [renderPanels, drawnNames, List.map_append, ih]
    congr 1
    cases h : p.enabled <;> simp [renderPanel, h]

theorem renderPanels_find (env : FrameEnv) (overlayClickThrough : Bool)
    (l : StrMap PanelConfig) (name : String) :
    ∀ clickTimes : List Int,
      mapFind (renderPanels env overlayClickThrough l clickTimes).1 name
        = (mapFind l name).map
            (fun p => if p.enabled then { p with pos := env.windowPos (c_str name) } else p) := by
  induction l with
  | nil => intro _; rfl
  | cons e rest ih =>
    intro clickTimes
    obtain ⟨k, p⟩ := e
    simp only [renderPanels, mapFind]
    by_cases hk : k = name
    · subst hk
      simp only [if_true, Option.map_some', renderPanel_config]
    · simp only [hk, if_false]
      exact ih _

theorem mem_of_mapFind {V : Type} (m : StrMap V) (k : String) (v : V) :
    mapFind m k = some v → (k, v) ∈ m := by
  induction m with
  | nil => intro h; simp [mapFind] at h
  | cons e rest ih =>
    obtain ⟨k0, v0⟩ := e
    intro h
    by_cases hk : k0 = k
    · subst hk
      simp only [mapFind, if_true, Option.some.injEq] at h
      subst h
      exact List.mem_cons_self _ _
    · simp only [mapFind, hk, if_false] at h
      exact List.mem_cons_of_mem _ (ih h)

theorem mapFind_of_mem {V : Type} (m : StrMap V) (k : String) (v : V)
    (hd : KeysDistinct m) : (k, v) ∈ m → mapFind m k = some v := by
  induction m with
  | nil => intro h; simp at h
  | cons e rest ih =>
    obtain ⟨k0, v0⟩ := e
    intro h
    simp only [KeysDistinct, mapKeys, List.map_cons, List.nodup_cons] at hd
    rcases List.mem_cons.mp h with heq | hmem
    · cases heq
      simp [mapFind]
    · have hne : ¬ k0 = k := by
        intro hk
        subst hk
        exact hd.1 (List.mem_map.mpr ⟨(k0, v), hmem, rfl⟩)
      simp only [mapFind, hne, if_false]
      exact ih hd.2 hmem

/-- C11: for every Settings value (a valid map: one entry per panel identity),
the panels drawn in one overlay frame are exactly the enabled ones: a panel
whose `enabled` flag is false is not drawn, a panel whose `enabled` flag is
true is drawn, the windows handed to the UI collaborator are those of the
drawn panels, and the `PanelConfig` of a disabled panel is the same after the
frame as before. -/
theorem overlayPanels_draws_exactly_enabled (env : FrameEnv) (g : AppConfig)
    (clickTimes : List Int) (hd : KeysDistinct g.panels) :
    (∀ name p, mapFind g.panels name = some p → p.enabled = false →
        name ∉ drawnNames env g.overlayClickThrough g.panels clickTimes)
      ∧ (∀ name p, mapFind g.panels name = some p → p.enabled = true →
        name ∈ drawnNames env g.overlayClickThrough g.panels clickTimes)
      ∧ (overlayPanels env g clickTimes).2.1.map Draw.title
          = (drawnNames env g.overlayClickThrough g.panels clickTimes).map c_str
      ∧ (∀ name p, mapFind g.panels name = some p → p.enabled = false →
        mapFind (overlayPanels env g clickTimes).1.panels name = some p) := by
  refine ⟨?_, ?_, ?_, ?_⟩
  · intro name p hfind hdis hmem
    rw [drawnNames_eq_enabled] at hmem
    obtain ⟨⟨k, q⟩, hq, hk⟩ := List.mem_map.mp hmem
    simp only at hk
    subst hk
    obtain ⟨hqmem, hqen⟩ := List.mem_filter.mp hq
    have h1 := mapFind_of_mem g.panels k q hd hqmem
    rw [hfind] at h1
    cases h1
    simp only [hdis] at hqen
    exact Bool.noConfusion hqen
  · intro name p hfind hen
    rw [drawnNames_eq_enabled]
    exact List.mem_map.mpr
      ⟨(name, p), List.mem_filter.mpr ⟨mem_of_mapFind g.panels name p hfind, hen⟩, rfl⟩
  · exact renderPanels_titles env g.overlayClickThrough g.panels clickTimes
  · intro name p hfind hdis
    show mapFind (renderPanels env g.overlayClickThrough g.panels clickTimes).1 name = some p
    rw [renderPanels_find, hfind]
    simp [hdis]

theorem overlayPanels_draws_exactly_enabled_witness :
    KeysDistinct roundtripExample.panels
      ∧ "FPS COUNTER" ∉ drawnNames movedFrame roundtripExample.overlayClickThrough
          roundtripExample.panels [0, 10]
      ∧ "MY PANEL" ∈ drawnNames movedFrame roundtripExample.overlayClickThrough
          roundtripExample.panels [0, 10]
      ∧ mapFind (overlayPanels movedFrame roundtripExample [0, 10]).1.panels "FPS COUNTER"
          = some { enabled := false, scale := 3 / 2 } :=
  ⟨by decide,
   (overlayPanels_draws_exactly_enabled movedFrame roundtripExample [0, 10] (by decide)).1
     "FPS COUNTER" { enabled := false, scale := 3 / 2 } rfl rfl,
   (overlayPanels_draws_exactly_enabled movedFrame roundtripExample [0, 10] (by decide)).2.1
     "MY PANEL" { background := false, bgColor := ⟨0, 0, 1, 1 / 4⟩ } rfl rfl,
   (overlayPanels_draws_exactly_enabled movedFrame roundtripExample [0, 10] (by decide)).2.2.2
     "FPS COUNTER" { enabled := false, scale := 3 / 2 } rfl rfl⟩

/-! ## The panel loop: the content of unrecognised identities -/

theorem panelContent_fallback (env : FrameEnv) (clickTimes : List Int) (name : String)
    (p : PanelConfig) (hname : name ∉ RECOGNISED_NAMES) :
    panelContent env clickTimes name p = (.text (c_str name), none, clickTimes) := by
  simp only [RECOGNISED_NAMES, List.mem_cons, List.mem_singleton, List.not_mem_nil, or_false,
    not_or] at hname
  obtain ⟨h1, h2, h3, h4, h5⟩ := hname
  simp only [panelContent, h1, h2, h3, h4, h5, if_false]

theorem renderPanel_fallback (env : FrameEnv) (overlayClickThrough : Bool)
    (clickTimes : List Int) (name : String) (p : PanelConfig)
    (hen : p.enabled = true) (hname : name ∉ RECOGNISED_NAMES) :
    (renderPanel env overlayClickThrough clickTimes name p).2.1
      = some { title := c_str name
               bgAlpha := if p.background then p.bgColor.v3 else 0
               size := ⟨180 * p.scale, 30 * p.scale⟩
               pos := p.pos
               noMove := !p.movable
               noInputs := overlayClickThrough
               textColor := none
               content := .text (c_str name) } := by
  simp [renderPanel, hen, panelContent_fallback env clickTimes name p hname]

theorem renderPanels_draw_mem (env : FrameEnv) (overlayClickThrough : Bool)
    (l : StrMap PanelConfig) (name : String) (p : PanelConfig) (d : Draw)
    (hdraw : ∀ c : List Int, (renderPanel env overlayClickThrough c name p).2.1 = some d) :
    (name, p) ∈ l →
      ∀ clickTimes : List Int, d ∈ (renderPanels env overlayClickThrough l clickTimes).2.1 := by
  induction l with
  | nil => intro h; simp at h
  | cons e rest ih =>
    intro h clickTimes
    obtain ⟨k, q⟩ := e
    simp only [renderPanels, List.mem_append]
    rcases List.mem_cons.mp h with heq | hmem
    · cases heq
      left
      rw [hdraw]
      simp
    · right
      exact ih hmem _

theorem c_str_of_no_nul (s : String) (h : Char.ofNat 0 ∉ s.data) : c_str s = s := by
  have ht : s.data.takeWhile (fun c => decide (c ≠ Char.ofNat 0)) = s.data := by
    rw [List.takeWhile_eq_self_iff]
    intro c hc
    simp only [ne_eq, decide_not, Bool.not_eq_true', decide_eq_false_iff_not]
    intro hc0
    exact h (hc0 ▸ hc)
  show String.mk (s.data.takeWhile (fun c => decide (c ≠ Char.ofNat 0))) = s
  rw [ht]

/-- C12 (as stated, refuted): the enabled panel whose identity is `nulName`
(`STATS`, a NUL character, `v2`) is not one of the five recognised identities,
and the frame displays the text `STATS` for it, which is not its identity
string. -/
theorem fallback_content_stops_at_nul :
    mapFind nulPanelConfig.panels nulName = some { enabled := true }
      ∧ nulName ∉ RECOGNISED_NAMES
      ∧ (overlayPanels movedFrame nulPanelConfig []).2.1.map Draw.content
          = [Content.text "STATS"]
      ∧ Content.text "STATS" ≠ Content.text nulName := by
  refine ⟨rfl, by decide, rfl, by decide⟩

/-- C12 (amended): for every enabled panel whose identity string is not one of
the five recognised ones, whether in the fixed catalog or not, the frame draws
the panel, with plain `Text` whose content is the identity read as a C string
(`name.c_str()` under `"%s"`): the identity string itself when it contains no
NUL character, and in general the part before its first NUL. -/
theorem overlayPanels_fallback_content (env : FrameEnv) (g : AppConfig)
    (clickTimes : List Int) (name : String) (p : PanelConfig)
    (hfind : mapFind g.panels name = some p) (hen : p.enabled = true)
    (hname : name ∉ RECOGNISED_NAMES) :
    name ∈ drawnNames env g.overlayClickThrough g.panels clickTimes
      ∧ (∃ d ∈ (overlayPanels env g clickTimes).2.1,
          (∀ c : List Int, (renderPanel env g.overlayClickThrough c name p).2.1 = some d)
            ∧ d.title = c_str name
            ∧ d.textColor = none
            ∧ d.content = Content.text (c_str name))
      ∧ (Char.ofNat 0 ∉ name.data → c_str name = name) := by
  have hmem := mem_of_mapFind g.panels name p hfind
  refine ⟨?_, ?_, c_str_of_no_nul name⟩
  · rw [drawnNames_eq_enabled]
    exact List.mem_map.mpr ⟨(name, p), List.mem_filter.mpr ⟨hmem, hen⟩, rfl⟩
  · have hdraw := fun c : List Int =>
      renderPanel_fallback env g.overlayClickThrough c name p hen hname
    exact ⟨_, renderPanels_draw_mem env g.overlayClickThrough g.panels name p _ hdraw hmem
      clickTimes, hdraw, rfl, rfl, rfl⟩

theorem overlayPanels_fallback_content_witness :
    mapFind roundtripExample.panels "MY PANEL"
        = some { background := false, bgColor := ⟨0, 0, 1, 1 / 4⟩ }
      ∧ "MY PANEL" ∉ RECOGNISED_NAMES
      ∧ "MY PANEL" ∈ drawnNames movedFrame roundtripExample.overlayClickThrough
          roundtripExample.panels [0, 10]
      ∧ (∃ d ∈ (overlayPanels movedFrame roundtripExample [0, 10]).2.1,
          (∀ c : List Int,
            (renderPanel movedFrame roundtripExample.overlayClickThrough c "MY PANEL"
              { background := false, bgColor := ⟨0, 0, 1, 1 / 4⟩ }).2.1 = some d)
            ∧ d.title = c_str "MY PANEL"
            ∧ d.textColor = none
            ∧ d.content = Content.text (c_str "MY PANEL"))
      ∧ c_str "MY PANEL" = "MY PANEL" :=
  ⟨rfl, by decide,
   (overlayPanels_fallback_content movedFrame roundtripExample [0, 10] "MY PANEL"
     { background := false, bgColor := ⟨0, 0, 1, 1 / 4⟩ } rfl rfl (by decide)).1,
   (overlayPanels_fallback_content movedFrame roundtripExample [0, 10] "MY PANEL"
     { background := false, bgColor := ⟨0, 0, 1, 1 / 4⟩ } rfl rfl (by decide)).2.1,
   (overlayPanels_fallback_content movedFrame roundtripExample [0, 10] "MY PANEL"
     { background := false, bgColor := ⟨0, 0, 1, 1 / 4⟩ } rfl rfl (by decide)).2.2 (by decide)⟩

end Roro
